import Mathlib

/-!
Verification of the CSS selector builder of `src/05-objects-tasks.js`
(the `SimpleSelector` class and the `cssSelectorBuilder` facade).

The JavaScript class is embedded shallowly: its mutable object state
becomes the structure `SimpleSelector`, and every method becomes a pure
function from the pre-state to the post-state paired with `Option SelError`
(`none` = normal return, `some e` = the method threw).  Because a JS
exception does not undo earlier field assignments of the same call, the
post-state returned alongside `some e` is the state the object is left in
after the throw.

The source distinguishes two thrown errors by message:
  * "Element, id and pseudo-element should not occur more then one time
    inside the selector"            -> `SelError.duplicateSelectorPart`
  * "Selector parts should be arranged in the following order: ..."
                                    -> `SelError.selectorOrder`

The facade `cssSelectorBuilder` allocates a fresh `SimpleSelector` object
per entry call; to reason about object identity and in-place mutation
(`combine` appends to `this.str` of the left operand) we also give a small
heap model: a list of object states indexed by allocation order.
-/

set_option maxHeartbeats 1000000

/-- The two error kinds thrown by the selector methods, told apart by the
two distinct message strings in the source. -/
inductive SelError where
  | duplicateSelectorPart
  | selectorOrder
  deriving DecidableEq, Repr

/-- State of one `SimpleSelector` object: the constructor sets
`this.str = ''`, `this.stack = []`, and the three boolean flags to false.
The JS array `stack` is used only through `push`/`pop`, i.e. as a stack;
we keep the top of the stack at the head of the list. -/
structure SimpleSelector where
  str : String
  stack : List Nat
  isElement : Bool
  isId : Bool
  isPseudoElement : Bool
  deriving DecidableEq, Repr

/-- `new SimpleSelector()`. -/
def SimpleSelector.new : SimpleSelector :=
  { str := "", stack := [], isElement := false, isId := false, isPseudoElement := false }

/-- `stringify() { return this.str; }` -/
def SimpleSelector.stringify (s : SimpleSelector) : String := s.str

/-- The rank-bookkeeping block shared verbatim by the six fragment methods:
`const lastOrder = this.stack.pop();
 if (lastOrder && lastOrder > r) { throw <order error>; }
 else { this.stack.push(r); }`
`pop()` on an empty array yields `undefined` (falsy), and a popped `0` is
also falsy, hence the `lastOrder ≠ 0` conjunct.  On the throwing branch the
popped value has already been removed and nothing is pushed back. -/
def SimpleSelector.pushOrder (s : SimpleSelector) (r : Nat) : SimpleSelector × Option SelError :=
  match s.stack with
  | [] => ({ s with stack := [r] }, none)
  | lastOrder :: rest =>
    if lastOrder ≠ 0 ∧ r < lastOrder then
      ({ s with stack := rest }, some SelError.selectorOrder)
    else
      ({ s with stack := r :: rest }, none)

/-- `element(value)`: duplicate check on `isElement` first, then
`this.isElement = true; this.str += value;` then the rank block with 0. -/
def SimpleSelector.element (s : SimpleSelector) (value : String) :
    SimpleSelector × Option SelError :=
  if s.isElement then (s, some SelError.duplicateSelectorPart)
  else SimpleSelector.pushOrder { s with isElement := true, str := s.str ++ value } 0

/-- `id(value)`: duplicate check on `isId`, `this.str += '#' + value`, rank 1. -/
def SimpleSelector.id (s : SimpleSelector) (value : String) :
    SimpleSelector × Option SelError :=
  if s.isId then (s, some SelError.duplicateSelectorPart)
  else SimpleSelector.pushOrder { s with isId := true, str := s.str ++ "#" ++ value } 1

/-- `class(value)`: no duplicate check, `this.str += '.' + value`, rank 2. -/
def SimpleSelector.«class» (s : SimpleSelector) (value : String) :
    SimpleSelector × Option SelError :=
  SimpleSelector.pushOrder { s with str := s.str ++ "." ++ value } 2

/-- `attr(value)`: no duplicate check, `this.str += '[' + value + ']'`, rank 3. -/
def SimpleSelector.attr (s : SimpleSelector) (value : String) :
    SimpleSelector × Option SelError :=
  SimpleSelector.pushOrder { s with str := s.str ++ "[" ++ value ++ "]" } 3

/-- `pseudoClass(value)`: no duplicate check, `this.str += ':' + value`, rank 4. -/
def SimpleSelector.pseudoClass (s : SimpleSelector) (value : String) :
    SimpleSelector × Option SelError :=
  SimpleSelector.pushOrder { s with str := s.str ++ ":" ++ value } 4

/-- `pseudoElement(value)`: duplicate check on `isPseudoElement`,
`this.str += '::' + value`, rank 5. -/
def SimpleSelector.pseudoElement (s : SimpleSelector) (value : String) :
    SimpleSelector × Option SelError :=
  if s.isPseudoElement then (s, some SelError.duplicateSelectorPart)
  else SimpleSelector.pushOrder { s with isPseudoElement := true, str := s.str ++ "::" ++ value } 5

/-- `combine(combinator, selector) { this.str += ` $\x7bcombinator\x7d ` + selector.stringify(); return this; }`
No throw statement occurs in this method; it mutates the receiver (the left
operand) and returns it. -/
def SimpleSelector.combine (s : SimpleSelector) (combinator : String)
    (selector : SimpleSelector) : SimpleSelector :=
  { s with str := s.str ++ " " ++ combinator ++ " " ++ selector.stringify }

/-- The six fragment kinds, in the grammar order of the spec. -/
inductive FragKind where
  | element
  | id
  | «class»
  | attr
  | pseudoClass
  | pseudoElement
  deriving DecidableEq, Repr, Fintype

/-- The grammar rank each method pushes on the stack (element 0 .. pseudoElement 5). -/
def FragKind.rank : FragKind → Nat
  | .element => 0
  | .id => 1
  | .«class» => 2
  | .attr => 3
  | .pseudoClass => 4
  | .pseudoElement => 5

/-- Dispatch a fragment call of the given kind. -/
def applyFrag (k : FragKind) (v : String) (s : SimpleSelector) :
    SimpleSelector × Option SelError :=
  match k with
  | .element => s.element v
  | .id => s.id v
  | .«class» => s.«class» v
  | .attr => s.attr v
  | .pseudoClass => s.pseudoClass v
  | .pseudoElement => s.pseudoElement v

/-- The singleton flag a kind is guarded by (the repeatable kinds have none,
read as `false`). -/
def flagOf : FragKind → SimpleSelector → Bool
  | .element, s => s.isElement
  | .id, s => s.isId
  | .pseudoElement, s => s.isPseudoElement
  | _, _ => false

/-- The field assignment `this.isX = true` a kind performs (identity for the
repeatable kinds). -/
def setFlag : FragKind → SimpleSelector → SimpleSelector
  | .element, s => { s with isElement := true }
  | .id, s => { s with isId := true }
  | .pseudoElement, s => { s with isPseudoElement := true }
  | _, s => s

/-- Kinds restricted to a single occurrence per expression. -/
def isSingleton : FragKind → Bool
  | .element => true
  | .id => true
  | .pseudoElement => true
  | _ => false

/-- Modelled from the spec wording of the per-kind formatting: element as
the value verbatim, `#id`, `.class`, `[attr]`, `:pseudoClass`,
`::pseudoElement`.  Refinement target the code's string appends are
compared against. -/
def specFormat : FragKind → String → String
  | .element, v => v
  | .id, v => "#" ++ v
  | .«class», v => "." ++ v
  | .attr, v => "[" ++ v ++ "]"
  | .pseudoClass, v => ":" ++ v
  | .pseudoElement, v => "::" ++ v

/-- Concatenation of the formatted fragments of a call sequence, in call
order — the string the spec says `stringify()` must produce for a valid
sequence. -/
def concatFrags : List (FragKind × String) → String
  | [] => ""
  | (k, v) :: rest => specFormat k v ++ concatFrags rest

/-- Run a sequence of fragment calls on one object, keeping the state each
call leaves behind whether or not it threw (a caller that catches the
exception can keep using the object). -/
def applySeq (s : SimpleSelector) : List (FragKind × String) → SimpleSelector
  | [] => s
  | (k, v) :: rest => applySeq (applyFrag k v s).1 rest

/-- Run a sequence of fragment calls, stopping at the first thrown error:
`some s` means every call returned normally and left the object in state `s`. -/
def runFragsOk (s : SimpleSelector) : List (FragKind × String) → Option SimpleSelector
  | [] => some s
  | (k, v) :: rest =>
    match applyFrag k v s with
    | (s2, none) => runFragsOk s2 rest
    | (_, some _) => none

/-- Heap model of the `cssSelectorBuilder` facade: `heap` holds the states of
all `SimpleSelector` objects allocated so far (an expression is the index of
its object), and `result` mirrors the facade's `this.result` cache of the
most recently produced expression. -/
structure CssSelectorBuilder where
  heap : List SimpleSelector
  result : Option Nat
  deriving DecidableEq, Repr

/-- A facade entry call (`element`/`id`/`class`/`attr`/`pseudoClass`/
`pseudoElement`): `this.result = new SimpleSelector(); return this.result.k(value);`
— allocate a fresh object, invoke the like-named method on it, cache and
return it (plus the error the method threw, if any). -/
def cssEntry (b : CssSelectorBuilder) (k : FragKind) (v : String) :
    CssSelectorBuilder × Nat × Option SelError :=
  let r := b.heap.length
  let p := applyFrag k v SimpleSelector.new
  ({ heap := b.heap ++ [p.1], result := some r }, r, p.2)

/-- A chained fragment call `expr.k(value)` on the object `r` points to:
mutates that object in place. -/
def chainFrag (b : CssSelectorBuilder) (r : Nat) (k : FragKind) (v : String) :
    CssSelectorBuilder × Option SelError :=
  match b.heap.get? r with
  | some s =>
    let p := applyFrag k v s
    ({ b with heap := b.heap.set r p.1 }, p.2)
  | none => (b, none)

/-- Run a list of chained fragment calls, each aimed at some expression. -/
def runChain (b : CssSelectorBuilder) : List (Nat × FragKind × String) → CssSelectorBuilder
  | [] => b
  | (r, k, v) :: rest => runChain (chainFrag b r k v).1 rest

/-- The sub-list of calls aimed at expression `r`, with the target dropped. -/
def opsOn (r : Nat) (ops : List (Nat × FragKind × String)) : List (FragKind × String) :=
  (ops.filter (fun op => op.1 == r)).map (fun op => op.2)

/-- `combine(selector1, combinator, selector2)` of the facade:
`this.result = selector1.combine(combinator, selector2); return this.result;`
— `selector1.combine` appends to `selector1.str` and returns `selector1`,
so the heap cell of the left operand is overwritten and the left operand
itself is the returned expression. -/
def cssCombine (b : CssSelectorBuilder) (r1 : Nat) (c : String) (r2 : Nat) :
    CssSelectorBuilder × Nat :=
  match b.heap.get? r1, b.heap.get? r2 with
  | some s1, some s2 => ({ heap := b.heap.set r1 (s1.combine c s2), result := some r1 }, r1)
  | _, _ => (b, r1)

/-- `stringify()` of the object an expression points to. -/
def stringifyAt (b : CssSelectorBuilder) (r : Nat) : Option String :=
  (b.heap.get? r).map SimpleSelector.stringify

/-- The full operation alphabet of an expression, used to state which
operations can throw: fragment calls carry the error channel, while the
source of `combine` and `stringify` contains no throw statement. -/
inductive SelOp where
  | frag (k : FragKind) (v : String)
  | comb (c : String) (other : SimpleSelector)
  | strf

/-- One call of any operation on an expression: post-state plus thrown error. -/
def stepOp (s : SimpleSelector) : SelOp → SimpleSelector × Option SelError
  | .frag k v => applyFrag k v s
  | .comb c other => (s.combine c other, none)
  | .strf => (s, none)

/-! ## Helper lemmas about the embedded methods -/

/-- `pushOrder` never touches `str`. -/
lemma pushOrder_str (s : SimpleSelector) (r : Nat) :
    (SimpleSelector.pushOrder s r).1.str = s.str := by
  unfold SimpleSelector.pushOrder
  rcases s.stack with _ | ⟨t, rest⟩
  · rfl
  · by_cases h : t ≠ 0 ∧ r < t <;> simp [h]

/-- `pushOrder` never touches the singleton flags. -/
lemma flagOf_pushOrder (k : FragKind) (s : SimpleSelector) (r : Nat) :
    flagOf k (SimpleSelector.pushOrder s r).1 = flagOf k s := by
  unfold SimpleSelector.pushOrder
  rcases s.stack with _ | ⟨t, rest⟩
  · cases k <;> rfl
  · by_cases h : t ≠ 0 ∧ r < t <;> cases k <;> simp [h, flagOf]

/-- When the popped rank does not block (empty stack, popped 0, or popped
rank at most `r`), `pushOrder` returns normally and the new top is `r`. -/
lemma pushOrder_ok (s : SimpleSelector) (r : Nat)
    (h : ∀ t ∈ s.stack.head?, t ≤ r) :
    SimpleSelector.pushOrder s r = ({ s with stack := r :: s.stack.tail }, none) := by
  unfold SimpleSelector.pushOrder
  rcases hs : s.stack with _ | ⟨t, rest⟩
  · simp [hs]
  · have ht : t ≤ r := h t (by simp [hs])
    have : ¬(t ≠ 0 ∧ r < t) := by omega
    simp [hs, this]

/-- When the popped rank is nonzero and exceeds `r`, `pushOrder` throws the
order error, leaving the stack popped. -/
lemma pushOrder_err (s : SimpleSelector) (r t : Nat) (rest : List Nat)
    (hs : s.stack = t :: rest) (h0 : t ≠ 0) (hr : r < t) :
    SimpleSelector.pushOrder s r = ({ s with stack := rest }, some SelError.selectorOrder) := by
  unfold SimpleSelector.pushOrder
  simp [hs, h0, hr]

/-- `pushOrder` never throws the duplicate error. -/
lemma pushOrder_ne_dup (s : SimpleSelector) (r : Nat) :
    (SimpleSelector.pushOrder s r).2 ≠ some SelError.duplicateSelectorPart := by
  unfold SimpleSelector.pushOrder
  rcases s.stack with _ | ⟨t, rest⟩
  · simp
  · by_cases h : t ≠ 0 ∧ r < t <;> simp [h]

/-- A fragment call whose singleton flag is already set returns the
duplicate error at once, leaving the object untouched (only the three
singleton kinds can have their flag set). -/
lemma applyFrag_flag_true (k : FragKind) (v : String) (s : SimpleSelector)
    (hf : flagOf k s = true) :
    applyFrag k v s = (s, some SelError.duplicateSelectorPart) := by
  cases k <;>
    simp_all [applyFrag, flagOf, SimpleSelector.element, SimpleSelector.id,
      SimpleSelector.pseudoElement]

/-- A fragment call whose singleton flag is clear appends its formatted
fragment, sets its flag, and runs the rank block with its own rank. -/
lemma applyFrag_flag_false (k : FragKind) (v : String) (s : SimpleSelector)
    (hf : flagOf k s = false) :
    applyFrag k v s =
      SimpleSelector.pushOrder (setFlag k { s with str := s.str ++ specFormat k v }) k.rank := by
  cases k <;>
    simp_all [applyFrag, flagOf, setFlag, specFormat, FragKind.rank,
      SimpleSelector.element, SimpleSelector.id, SimpleSelector.«class»,
      SimpleSelector.attr, SimpleSelector.pseudoClass, SimpleSelector.pseudoElement,
      String.append_assoc]

/-- `setFlag` never clears a flag. -/
lemma flagOf_setFlag_mono (k k' : FragKind) (s : SimpleSelector)
    (h : flagOf k s = true) : flagOf k (setFlag k' s) = true := by
  cases k' <;> cases k <;> simp_all [flagOf, setFlag]

/-- `setFlag` only touches the flags, never `str` or `stack`. -/
lemma setFlag_str (k : FragKind) (s : SimpleSelector) : (setFlag k s).str = s.str := by
  cases k <;> rfl

lemma setFlag_stack (k : FragKind) (s : SimpleSelector) : (setFlag k s).stack = s.stack := by
  cases k <;> rfl

/-- Flags ignore `str` and `stack`, so they agree on states with the same
flag fields. -/
lemma flagOf_congr (k : FragKind) (x y : SimpleSelector)
    (he : x.isElement = y.isElement) (hi : x.isId = y.isId)
    (hp : x.isPseudoElement = y.isPseudoElement) : flagOf k x = flagOf k y := by
  cases k <;> simp [flagOf, he, hi, hp]

/-- A set singleton flag survives any later fragment call. -/
lemma flagOf_applyFrag_mono (k k' : FragKind) (v : String) (s : SimpleSelector)
    (h : flagOf k s = true) : flagOf k (applyFrag k' v s).1 = true := by
  by_cases hf : flagOf k' s = true
  · rw [applyFrag_flag_true k' v s hf]; exact h
  · rw [applyFrag_flag_false k' v s (by simpa using hf)]
    rw [flagOf_pushOrder]
    apply flagOf_setFlag_mono
    exact (flagOf_congr k { s with str := s.str ++ specFormat k' v } s rfl rfl rfl).trans h

/-- A singleton fragment call always leaves its own flag set, whether it
returned normally, threw the duplicate error, or threw the order error
(the flag assignment precedes the rank check in the source). -/
lemma flagOf_applyFrag_self (k : FragKind) (v : String) (s : SimpleSelector)
    (hk : isSingleton k = true) : flagOf k (applyFrag k v s).1 = true := by
  by_cases hf : flagOf k s = true
  · rw [applyFrag_flag_true k v s hf]; exact hf
  · rw [applyFrag_flag_false k v s (by simpa using hf)]
    rw [flagOf_pushOrder]
    cases k <;> simp_all [isSingleton, setFlag, flagOf]

/-- A set singleton flag survives any sequence of fragment calls. -/
lemma flagOf_applySeq_mono (k : FragKind) (s : SimpleSelector)
    (ops : List (FragKind × String)) (h : flagOf k s = true) :
    flagOf k (applySeq s ops) = true := by
  induction ops generalizing s with
  | nil => exact h
  | cons op rest ih =>
    obtain ⟨k', v'⟩ := op
    exact ih _ (flagOf_applyFrag_mono k k' v' s h)

/-- A fragment call that returns normally leaves its own rank on top of the
stack. -/
lemma applyFrag_ok_stack (k : FragKind) (v : String) (s : SimpleSelector)
    (h : (applyFrag k v s).2 = none) :
    ∃ rest, (applyFrag k v s).1.stack = k.rank :: rest := by
  by_cases hf : flagOf k s = true
  · rw [applyFrag_flag_true k v s hf] at h; simp at h
  · rw [applyFrag_flag_false k v s (by simpa using hf)] at h ⊢
    generalize hx : setFlag k { s with str := s.str ++ specFormat k v } = x at h ⊢
    unfold SimpleSelector.pushOrder at h ⊢
    rcases hs : x.stack with _ | ⟨t, rest⟩
    · exact ⟨[], by simp [hs]⟩
    · by_cases hc : t ≠ 0 ∧ k.rank < t
      · simp [hs, hc] at h
      · exact ⟨rest, by simp [hs, hc]⟩

/-- A fragment call with a clear flag, facing a nonzero top rank above its
own, throws the order error. -/
lemma applyFrag_order_err (k : FragKind) (v : String) (s : SimpleSelector)
    (t : Nat) (rest : List Nat) (hf : flagOf k s = false)
    (hs : s.stack = t :: rest) (h0 : t ≠ 0) (hr : k.rank < t) :
    (applyFrag k v s).2 = some SelError.selectorOrder := by
  rw [applyFrag_flag_false k v s hf]
  rw [pushOrder_err _ _ t rest (by rw [setFlag_stack]; exact hs) h0 hr]

/-- On an empty stack no fragment call can throw the order error: the
duplicate check may still fire, but the rank block always pushes. -/
lemma applyFrag_no_order_err_of_empty (k : FragKind) (v : String)
    (s : SimpleSelector) (hs : s.stack = []) :
    (applyFrag k v s).2 ≠ some SelError.selectorOrder := by
  by_cases hf : flagOf k s = true
  · rw [applyFrag_flag_true k v s hf]; simp
  · rw [applyFrag_flag_false k v s (by simpa using hf)]
    rw [pushOrder_ok _ _ (by rw [setFlag_stack]; simp [hs])]
    simp

/-! ## Concrete expressions used by counterexamples and witnesses -/

/-- The expression `element('a').class('b')`: the element flag is set and the
recorded top rank is 2 (class). -/
def sAB : SimpleSelector :=
  (applyFrag FragKind.«class» "b" (applyFrag FragKind.element "a" SimpleSelector.new).1).1

/-! ## The claims -/

/-- C1 (counterexample): the claim is not true of every expression.  On the
expression `element('a')`, the pair of calls `class('b')` (succeeds,
recording rank 2) then `element('c')` (rank 0 < 2) does not raise
`SelectorOrderError`: the duplicate check fires first and raises
`DuplicateSelectorPartError` instead. -/
theorem c1_counterexample :
    (applyFrag FragKind.«class» "b" (applyFrag FragKind.element "a" SimpleSelector.new).1).2
        = none ∧
    FragKind.rank FragKind.element < FragKind.rank FragKind.«class» ∧
    (applyFrag FragKind.element "c" sAB).2 = some SelError.duplicateSelectorPart ∧
    (applyFrag FragKind.element "c" sAB).2 ≠ some SelError.selectorOrder := by
  decide

/-- C1 (amended): for every expression and every pair of fragment calls on
it where the first call returns normally, the second call's rank is
strictly below the rank the first call recorded, and the second call's own
singleton flag is not already set (so its duplicate check does not fire
first), the second call raises `SelectorOrderError`; in particular
`id('x').element('y')` raises `SelectorOrderError`. -/
theorem c1_order_error_after_higher_rank (s : SimpleSelector) (k1 k2 : FragKind)
    (v1 v2 : String)
    (h1 : (applyFrag k1 v1 s).2 = none)
    (hr : k2.rank < k1.rank)
    (hdup : flagOf k2 (applyFrag k1 v1 s).1 = false) :
    (applyFrag k2 v2 (applyFrag k1 v1 s).1).2 = some SelError.selectorOrder := by
  obtain ⟨rest, hst⟩ := applyFrag_ok_stack k1 v1 s h1
  exact applyFrag_order_err k2 v2 _ k1.rank rest hdup hst (by omega) hr

/-- C1 (witness): `id('x').element('y')` raises `SelectorOrderError`. -/
theorem c1_witness :
    (applyFrag FragKind.element "y" (applyFrag FragKind.id "x" SimpleSelector.new).1).2
      = some SelError.selectorOrder :=
  c1_order_error_after_higher_rank SimpleSelector.new FragKind.id FragKind.element
    "x" "y" (by decide) (by decide) (by decide)

/-- C3: a second `element` call on an expression raises
`DuplicateSelectorPartError` no matter which fragment calls come between
the two invocations, and likewise for `id` and `pseudoElement`: the first
call of a singleton kind sets its flag (even when it itself threw), no
later fragment call ever clears a flag, and the duplicate check precedes
everything else in the method body. -/
theorem c3_second_singleton_call_duplicate (k : FragKind) (hk : isSingleton k = true)
    (s : SimpleSelector) (v1 v2 : String) (ops : List (FragKind × String)) :
    (applyFrag k v2 (applySeq (applyFrag k v1 s).1 ops)).2 =
      some SelError.duplicateSelectorPart := by
  have h1 : flagOf k (applyFrag k v1 s).1 = true := flagOf_applyFrag_self k v1 s hk
  have h2 : flagOf k (applySeq (applyFrag k v1 s).1 ops) = true :=
    flagOf_applySeq_mono k _ ops h1
  rw [applyFrag_flag_true k v2 _ h2]

/-- C3 (witness): `element('a').class('b').element('c')` raises
`DuplicateSelectorPartError`. -/
theorem c3_witness :
    (applyFrag FragKind.element "c"
        (applySeq (applyFrag FragKind.element "a" SimpleSelector.new).1
          [(FragKind.«class», "b")])).2 = some SelError.duplicateSelectorPart :=
  c3_second_singleton_call_duplicate FragKind.element (by decide) SimpleSelector.new
    "a" "c" [(FragKind.«class», "b")]

/-- C4: `combine(left, c, right)` produces an expression whose `stringify()`
is `left.stringify() ++ " " ++ c ++ " " ++ right.stringify()`, and with the
single-space combinator exactly three spaces separate the operand strings
(the literal insertion is kept even when the combinator is a space). -/
theorem c4_combine_stringify (left right : SimpleSelector) (c : String) :
    (left.combine c right).stringify =
      left.stringify ++ " " ++ c ++ " " ++ right.stringify ∧
    (left.combine " " right).stringify = left.stringify ++ "   " ++ right.stringify := by
  refine ⟨rfl, ?_⟩
  show left.str ++ " " ++ " " ++ " " ++ right.str = left.str ++ "   " ++ right.str
  have h3 : (" " : String) ++ " " ++ " " = "   " := by decide
  rw [String.append_assoc left.str, String.append_assoc left.str, h3]

/-- C6 (counterexample): on `element('a').class('b')` a further
`element('c')` call violates the singleton constraint (flag set) and the
ordering constraint (rank 0 below the recorded rank 2) at once, yet it
raises `DuplicateSelectorPartError`, not `SelectorOrderError`: the
singleton check runs first, so the claimed check order is wrong. -/
theorem c6_counterexample :
    sAB.isElement = true ∧ sAB.stack = [2] ∧
    FragKind.rank FragKind.element < 2 ∧
    (applyFrag FragKind.element "c" sAB).2 = some SelError.duplicateSelectorPart := by
  decide

/-- C6 (amended): for each of `element`, `id` and `pseudoElement` the
singleton check is evaluated before the ordering check; consequently a call
that violates both constraints at once raises `DuplicateSelectorPartError`,
and the expression is left completely unchanged. -/
theorem c6_duplicate_checked_first (s : SimpleSelector) (k : FragKind) (v : String)
    (hf : flagOf k s = true) :
    applyFrag k v s = (s, some SelError.duplicateSelectorPart) :=
  applyFrag_flag_true k v s hf

/-- C6 (witness): on `element('a').class('b')`, where both constraints are
violated, `element('c')` returns the duplicate error and leaves the state
unchanged. -/
theorem c6_witness :
    applyFrag FragKind.element "c" sAB = (sAB, some SelError.duplicateSelectorPart) :=
  c6_duplicate_checked_first sAB FragKind.element "c" (by decide)

/-- C8: `stringify` and `combine` never throw: in the operation alphabet of
an expression only fragment calls carry an error, while a `combine` or
`stringify` step on any state returns normally. -/
theorem c8_stringify_combine_no_error (s other : SimpleSelector) (c : String) :
    (stepOp s (SelOp.comb c other)).2 = none ∧ (stepOp s SelOp.strf).2 = none :=
  ⟨rfl, rfl⟩

/-- C9: `stringify()` is side-effect-free and idempotent: a `stringify` step
leaves the accumulated text, the rank stack and the three singleton flags
unchanged, and a second consecutive `stringify` returns the same string. -/
theorem c9_stringify_pure (s : SimpleSelector) :
    (stepOp s SelOp.strf).1.str = s.str ∧
    (stepOp s SelOp.strf).1.stack = s.stack ∧
    (stepOp s SelOp.strf).1.isElement = s.isElement ∧
    (stepOp s SelOp.strf).1.isId = s.isId ∧
    (stepOp s SelOp.strf).1.isPseudoElement = s.isPseudoElement ∧
    ((stepOp s SelOp.strf).1).stringify = s.stringify :=
  ⟨rfl, rfl, rfl, rfl, rfl, rfl⟩

/-- C10: a fragment call that throws the order error has already mutated the
expression: the formatted fragment was appended to the accumulated string
and the recorded rank was popped without being restored, so a later
`stringify()` shows the rejected fragment and no later fragment call can
throw the order error again; a call that throws the duplicate error leaves
the accumulated string and the rank stack untouched.  (On every reachable
expression the rank stack holds at most one entry.) -/
theorem c10_order_error_partial_mutation (s : SimpleSelector) (k : FragKind) (v : String)
    (hlen : s.stack.length ≤ 1) :
    ((applyFrag k v s).2 = some SelError.selectorOrder →
      (applyFrag k v s).1.str = s.str ++ specFormat k v ∧
      (applyFrag k v s).1.stack = [] ∧
      ∀ k' v', (applyFrag k' v' (applyFrag k v s).1).2 ≠ some SelError.selectorOrder) ∧
    ((applyFrag k v s).2 = some SelError.duplicateSelectorPart →
      (applyFrag k v s).1.str = s.str ∧ (applyFrag k v s).1.stack = s.stack) := by
  constructor
  · intro herr
    by_cases hf : flagOf k s = true
    · rw [applyFrag_flag_true k v s hf] at herr; simp at herr
    · rw [applyFrag_flag_false k v s (by simpa using hf)] at herr ⊢
      set X := setFlag k { s with str := s.str ++ specFormat k v } with hX
      have hXstr : X.str = s.str ++ specFormat k v := by rw [hX, setFlag_str]
      have hXstack : X.stack = s.stack := by rw [hX, setFlag_stack]
      rcases hs : X.stack with _ | ⟨t, rest⟩
      · rw [pushOrder_ok X k.rank (by rw [hs]; simp)] at herr
        simp at herr
      · by_cases hc : t ≠ 0 ∧ k.rank < t
        · have hrest : rest = [] := by
            rw [← hXstack, hs] at hlen; simpa using hlen
          subst hrest
          rw [pushOrder_err X k.rank t [] hs hc.1 hc.2]
          refine ⟨hXstr, rfl, ?_⟩
          intro k' v'
          exact applyFrag_no_order_err_of_empty k' v' _ rfl
        · rw [pushOrder_ok X k.rank (by
            rw [hs]; intro u hu; simp at hu; subst hu; omega)] at herr
          simp at herr
  · intro herr
    by_cases hf : flagOf k s = true
    · rw [applyFrag_flag_true k v s hf]
      exact ⟨rfl, rfl⟩
    · rw [applyFrag_flag_false k v s (by simpa using hf)] at herr
      exact absurd herr (pushOrder_ne_dup _ _)

/-- C10 (witness): after `id('x')` (top rank 1), the order-rejected call
`element('y')` has appended `y` and emptied the rank stack. -/
theorem c10_witness :
    (applyFrag FragKind.element "y" (applyFrag FragKind.id "x" SimpleSelector.new).1).1.str =
      (applyFrag FragKind.id "x" SimpleSelector.new).1.str
        ++ specFormat FragKind.element "y" ∧
    (applyFrag FragKind.element "y" (applyFrag FragKind.id "x" SimpleSelector.new).1).1.stack
        = [] ∧
    ∀ k' v',
      (applyFrag k' v'
        (applyFrag FragKind.element "y"
          (applyFrag FragKind.id "x" SimpleSelector.new).1).1).2
        ≠ some SelError.selectorOrder :=
  (c10_order_error_partial_mutation (applyFrag FragKind.id "x" SimpleSelector.new).1
    FragKind.element "y" (by decide)).1 (by decide)

/-! ## Valid sequences (C2) -/

/-- How `setFlag` acts on each flag: it sets the flag of its own (singleton)
kind and leaves every other flag alone. -/
lemma flagOf_setFlag (k' k : FragKind) (s : SimpleSelector) :
    flagOf k' (setFlag k s) = (k' == k && isSingleton k || flagOf k' s) := by
  cases k <;> cases k' <;> simp [setFlag, flagOf, isSingleton]

/-- A fragment call with a clear flag and no higher recorded rank returns
normally; the new state has the formatted fragment appended, the call's
rank on top of the stack, and the flags of `setFlag`. -/
lemma applyFrag_ok_spec (k : FragKind) (v : String) (s : SimpleSelector)
    (hf : flagOf k s = false)
    (hle : ∀ t ∈ s.stack.head?, t ≤ k.rank) :
    ∃ s2, applyFrag k v s = (s2, none) ∧
      s2.str = s.str ++ specFormat k v ∧
      s2.stack.head? = some k.rank ∧
      ∀ k', flagOf k' s2 = flagOf k' (setFlag k s) := by
  rw [applyFrag_flag_false k v s hf]
  rw [pushOrder_ok _ _ (by rw [setFlag_stack]; exact hle)]
  refine ⟨_, rfl, ?_, rfl, ?_⟩
  · show (setFlag k { s with str := s.str ++ specFormat k v }).str = s.str ++ specFormat k v
    rw [setFlag_str]
  · intro k'
    cases k <;> cases k' <;> simp [setFlag, flagOf]

/-- Main induction for C2: starting from a state whose recorded top rank
does not exceed the first call's rank and none of whose set flags
reappears in the sequence, a rank-monotone sequence with at most one call
of each singleton kind runs without any error and appends exactly the
formatted fragments in call order. -/
lemma runFragsOk_of_valid (ops : List (FragKind × String)) (s : SimpleSelector)
    (hstack : ∀ t ∈ s.stack.head?, ∀ op ∈ ops.head?, t ≤ (op : FragKind × String).1.rank)
    (hmono : List.Chain' (fun a b => a.1.rank ≤ b.1.rank) ops)
    (hflags : ∀ op ∈ ops, flagOf (op : FragKind × String).1 s = false)
    (hcount : ∀ k, isSingleton k = true → (ops.map Prod.fst).count k ≤ 1) :
    ∃ s2, runFragsOk s ops = some s2 ∧ s2.str = s.str ++ concatFrags ops := by
  induction ops generalizing s with
  | nil => exact ⟨s, rfl, by simp [concatFrags]⟩
  | cons op rest ih =>
    obtain ⟨k, v⟩ := op
    have hf : flagOf k s = false := hflags (k, v) (by simp)
    obtain ⟨s2, heq, hstr2, hhead2, hflag2⟩ :=
      applyFrag_ok_spec k v s hf
        (fun t ht => hstack t ht (k, v) (by simp))
    have hchain := List.chain'_cons'.mp hmono
    obtain ⟨s3, hrun3, hstr3⟩ := ih s2
      (by
        intro t ht op2 hop2
        rw [hhead2] at ht
        simp only [Option.mem_def, Option.some.injEq] at ht
        subst ht
        exact hchain.1 op2 hop2)
      hchain.2
      (by
        intro op2 hmem
        rw [hflag2 op2.1, flagOf_setFlag]
        have h1 : flagOf op2.1 s = false := hflags op2 (List.mem_cons_of_mem _ hmem)
        rw [h1, Bool.or_false]
        by_cases he : op2.1 = k
        · by_cases hsing : isSingleton k = true
          · exfalso
            have hmem2 : k ∈ rest.map Prod.fst := List.mem_map.mpr ⟨op2, hmem, he⟩
            have hpos : 0 < (rest.map Prod.fst).count k := List.count_pos_iff.mpr hmem2
            have := hcount k hsing
            simp only [List.map_cons, List.count_cons_self] at this
            omega
          · simp [Bool.and_eq_false_iff, hsing]
        · simp [he])
      (by
        intro k2 hsing
        have := hcount k2 hsing
        simp only [List.map_cons, List.count_cons] at this
        omega)
    refine ⟨s3, ?_, ?_⟩
    · show (match applyFrag k v s with
        | (s2, none) => runFragsOk s2 rest
        | (_, some _) => none) = some s3
      rw [heq]
      exact hrun3
    · rw [hstr3, hstr2, concatFrags, String.append_assoc]

/-- C2: every fragment-call sequence with non-decreasing ranks in which
`element`, `id` and `pseudoElement` each occur at most once (while `class`,
`attr`, `pseudoClass` may repeat) raises no error, and `stringify()` then
returns the concatenation of the fragments in call order with the per-kind
formatting (value, `#id`, `.class`, `[attr]`, `:pc`, `::pe`). -/
theorem c2_valid_sequences_stringify (ops : List (FragKind × String))
    (hmono : List.Chain' (fun a b => a.1.rank ≤ b.1.rank) ops)
    (hcount : ∀ k, isSingleton k = true → (ops.map Prod.fst).count k ≤ 1) :
    ∃ s, runFragsOk SimpleSelector.new ops = some s ∧
      s.stringify = concatFrags ops := by
  obtain ⟨s2, h1, h2⟩ := runFragsOk_of_valid ops SimpleSelector.new
    (by intro t ht; simp [SimpleSelector.new] at ht)
    hmono
    (by intro op hop; rcases op with ⟨k, v⟩; cases k <;> rfl)
    hcount
  exact ⟨s2, h1, by rw [SimpleSelector.stringify, h2]; exact String.empty_append _⟩

/-- C2 (witness): `id('main').class('container').class('editable')`
runs without error and stringifies to `#main.container.editable`. -/
theorem c2_witness :
    ∃ s, runFragsOk SimpleSelector.new
        [(FragKind.id, "main"), (FragKind.«class», "container"),
          (FragKind.«class», "editable")] = some s ∧
      s.stringify = "#main.container.editable" := by
  obtain ⟨s, h1, h2⟩ := c2_valid_sequences_stringify
    [(FragKind.id, "main"), (FragKind.«class», "container"),
      (FragKind.«class», "editable")]
    (by simp [List.chain'_cons, FragKind.rank]) (by decide)
  exact ⟨s, h1, by rw [h2]; decide⟩

/-! ## Heap reasoning for the facade (C5, C7) -/

/-- Overwriting a live cell is visible at its own index. -/
lemma get?_set_self (l : List SimpleSelector) (i : Nat) (a s : SimpleSelector)
    (h : l.get? i = some s) : (l.set i a).get? i = some a := by
  rw [List.get?_set_eq, h]
  rfl

/-- A chained fragment call on expression `r` rewrites exactly cell `r`. -/
lemma chainFrag_get_self (b : CssSelectorBuilder) (r : Nat) (k : FragKind)
    (v : String) (s : SimpleSelector) (h : b.heap.get? r = some s) :
    (chainFrag b r k v).1.heap.get? r = some (applyFrag k v s).1 := by
  unfold chainFrag
  rw [h]
  exact get?_set_self _ _ _ _ h

/-- A chained fragment call on one expression leaves every other
expression's cell untouched. -/
lemma chainFrag_get_other (b : CssSelectorBuilder) (r' r : Nat) (k : FragKind)
    (v : String) (hne : r' ≠ r) :
    (chainFrag b r' k v).1.heap.get? r = b.heap.get? r := by
  unfold chainFrag
  cases hb : b.heap.get? r' with
  | none => rfl
  | some s => exact List.get?_set_ne _ _ hne

/-- Frame property: after any interleaved list of chained fragment calls,
the state of expression `r` is obtained by applying, in order, exactly the
calls aimed at `r` to its previous state. -/
lemma runChain_get (ops : List (Nat × FragKind × String)) (b : CssSelectorBuilder)
    (r : Nat) (s : SimpleSelector) (h : b.heap.get? r = some s) :
    (runChain b ops).heap.get? r = some (applySeq s (opsOn r ops)) := by
  induction ops generalizing b s with
  | nil => simpa [runChain, opsOn, applySeq] using h
  | cons op rest ih =>
    obtain ⟨r2, k, v⟩ := op
    by_cases hr : r2 = r
    · subst hr
      have hc := chainFrag_get_self b r2 k v s h
      have hrec := ih (chainFrag b r2 k v).1 (applyFrag k v s).1 hc
      show (runChain (chainFrag b r2 k v).1 rest).heap.get? r2 = _
      rw [hrec]
      simp [opsOn, applySeq]
    · have hc : (chainFrag b r2 k v).1.heap.get? r = some s := by
        rw [chainFrag_get_other b r2 r k v hr]
        exact h
      have hrec := ih (chainFrag b r2 k v).1 s hc
      show (runChain (chainFrag b r2 k v).1 rest).heap.get? r = _
      rw [hrec]
      simp [opsOn, hr]

/-- A builder heap holding the two expressions `element('div')` (index 0)
and `element('p')` (index 1), as allocated by two facade entry calls. -/
def bDivP : CssSelectorBuilder :=
  (cssEntry (cssEntry { heap := [], result := none } FragKind.element "div").1
    FragKind.element "p").1

/-- C5 (counterexample): `combine` does mutate its left operand.  With
`a = element('div')` and `b = element('p')`, after `combine(a, '+', b)` the
left operand `a` stringifies to `"div + p"`, not to its previous `"div"`. -/
theorem c5_counterexample :
    stringifyAt bDivP 0 = some "div" ∧
    stringifyAt (cssCombine bDivP 0 "+" 1).1 0 = some "div + p" ∧
    stringifyAt (cssCombine bDivP 0 "+" 1).1 0 ≠ stringifyAt bDivP 0 := by
  decide

/-- C5 (amended): `combine(left, c, right)` with `right` a different object
from `left` leaves the right operand's cell (hence its `stringify()`)
unchanged; the returned expression is the left operand itself, whose cell
now holds the in-place-extended state `left.combine c right`. -/
theorem c5_combine_mutates_left_only (b : CssSelectorBuilder) (r1 r2 : Nat)
    (c : String) (s1 s2 : SimpleSelector) (hne : r1 ≠ r2)
    (h1 : b.heap.get? r1 = some s1) (h2 : b.heap.get? r2 = some s2) :
    (cssCombine b r1 c r2).1.heap.get? r2 = some s2 ∧
    (cssCombine b r1 c r2).2 = r1 ∧
    (cssCombine b r1 c r2).1.heap.get? r1 = some (s1.combine c s2) := by
  unfold cssCombine
  rw [h1, h2]
  refine ⟨?_, rfl, ?_⟩
  · exact (List.get?_set_ne _ _ hne).trans h2
  · exact get?_set_self _ _ _ _ h1

/-- C5 (witness): on the heap with `element('div')` and `element('p')`,
combining cell 0 with cell 1 leaves cell 1 at `"p"` and returns cell 0,
now `"div + p"`. -/
theorem c5_witness :
    (cssCombine bDivP 0 "+" 1).1.heap.get? 1
        = some (applyFrag FragKind.element "p" SimpleSelector.new).1 ∧
    (cssCombine bDivP 0 "+" 1).2 = 0 ∧
    (cssCombine bDivP 0 "+" 1).1.heap.get? 0
        = some ((applyFrag FragKind.element "div" SimpleSelector.new).1.combine "+"
            (applyFrag FragKind.element "p" SimpleSelector.new).1) :=
  c5_combine_mutates_left_only bDivP 0 1 "+"
    (applyFrag FragKind.element "div" SimpleSelector.new).1
    (applyFrag FragKind.element "p" SimpleSelector.new).1
    (by decide) (by decide) (by decide)

/-- C7: two facade entry calls return distinct expressions (each entry
allocates a brand-new object), and after any interleaved list of chained
fragment calls each of the two expressions stringifies to a value computed
solely from the calls aimed at it (starting from its freshly allocated
state), so calls on one chain never change the `stringify()` result of the
other. -/
theorem c7_entry_chains_independent (b : CssSelectorBuilder) (k1 k2 : FragKind)
    (v1 v2 : String) (ops : List (Nat × FragKind × String)) :
    (cssEntry b k1 v1).2.1 ≠ (cssEntry (cssEntry b k1 v1).1 k2 v2).2.1 ∧
    stringifyAt (runChain (cssEntry (cssEntry b k1 v1).1 k2 v2).1 ops)
        (cssEntry b k1 v1).2.1
      = some (SimpleSelector.stringify
          (applySeq (applyFrag k1 v1 SimpleSelector.new).1
            (opsOn (cssEntry b k1 v1).2.1 ops))) ∧
    stringifyAt (runChain (cssEntry (cssEntry b k1 v1).1 k2 v2).1 ops)
        (cssEntry (cssEntry b k1 v1).1 k2 v2).2.1
      = some (SimpleSelector.stringify
          (applySeq (applyFrag k2 v2 SimpleSelector.new).1
            (opsOn (cssEntry (cssEntry b k1 v1).1 k2 v2).2.1 ops))) := by
  have hget1 : (cssEntry (cssEntry b k1 v1).1 k2 v2).1.heap.get? (cssEntry b k1 v1).2.1
      = some (applyFrag k1 v1 SimpleSelector.new).1 := by
    show ((b.heap ++ [(applyFrag k1 v1 SimpleSelector.new).1])
        ++ [(applyFrag k2 v2 SimpleSelector.new).1]).get? b.heap.length = _
    rw [List.get?_append (by simp), List.get?_concat_length]
  have hget2 : (cssEntry (cssEntry b k1 v1).1 k2 v2).1.heap.get?
        (cssEntry (cssEntry b k1 v1).1 k2 v2).2.1
      = some (applyFrag k2 v2 SimpleSelector.new).1 := by
    show ((b.heap ++ [(applyFrag k1 v1 SimpleSelector.new).1])
          ++ [(applyFrag k2 v2 SimpleSelector.new).1]).get?
        (b.heap ++ [(applyFrag k1 v1 SimpleSelector.new).1]).length = _
    rw [List.get?_concat_length]
  refine ⟨?_, ?_, ?_⟩
  · show b.heap.length ≠ (b.heap ++ [(applyFrag k1 v1 SimpleSelector.new).1]).length
    simp
  · unfold stringifyAt
    rw [runChain_get ops _ _ _ hget1]
    rfl
  · unfold stringifyAt
    rw [runChain_get ops _ _ _ hget2]
    rfl

/-! ## Invariant: the rank stack of a real expression never holds more than
one entry (each method pops once and pushes at most once), justifying the
stack-length hypothesis of the C10 theorem for all reachable states. -/

lemma pushOrder_stack_le_one (s : SimpleSelector) (r : Nat)
    (h : s.stack.length ≤ 1) :
    (SimpleSelector.pushOrder s r).1.stack.length ≤ 1 := by
  unfold SimpleSelector.pushOrder
  rcases hs : s.stack with _ | ⟨t, rest⟩
  · simp
  · rw [hs] at h
    simp only [List.length_cons] at h
    have hrest : rest = [] := by
      cases rest with
      | nil => rfl
      | cons a l => simp at h
    subst hrest
    by_cases hc : t ≠ 0 ∧ r < t <;> simp [hc]

lemma applyFrag_stack_le_one (k : FragKind) (v : String) (s : SimpleSelector)
    (h : s.stack.length ≤ 1) : (applyFrag k v s).1.stack.length ≤ 1 := by
  by_cases hf : flagOf k s = true
  · rw [applyFrag_flag_true k v s hf]; exact h
  · rw [applyFrag_flag_false k v s (by simpa using hf)]
    exact pushOrder_stack_le_one _ _ (by rw [setFlag_stack]; exact h)

lemma applySeq_stack_le_one (ops : List (FragKind × String)) (s : SimpleSelector)
    (h : s.stack.length ≤ 1) : (applySeq s ops).stack.length ≤ 1 := by
  induction ops generalizing s with
  | nil => exact h
  | cons op rest ih =>
    obtain ⟨k, v⟩ := op
    exact ih _ (applyFrag_stack_le_one k v s h)

lemma new_stack_le_one : SimpleSelector.new.stack.length ≤ 1 := by decide
